import Mathlib

set_option maxRecDepth 20000

namespace MVoice

/-!
Verification development for the mvoice automation repository.

The Python sources are shallowly embedded here: strings are `List Char`
(converted from Lean `String` literals at the boundary), the Python `re`
patterns used by the code are specialized to executable functions that
realize exactly the backtracking behavior of those concrete patterns, and
the CSV store is an in-memory list of association-list rows.
-/

/-- Python's `\s` character class (ASCII range), as used by `re` and `str.strip`. -/
def isPySpace (c : Char) : Bool :=
  c = ' ' || c = '\t' || c = '\n' || c = '\r' || c = '\x0b' || c = '\x0c'

/-- Bounded length comparison: `lenGt s n` decides `n < s.length` by walking
the text while counting the bound down, so kernel evaluation is iterative
and never materializes a large number. -/
def lenGt : List Char → Nat → Bool
  | [], _ => false
  | _ :: _, 0 => true
  | _ :: cs, n + 1 => lenGt cs n

/-- Boolean text equality (`==` on Python strings), evaluated iteratively. -/
def eqB : List Char → List Char → Bool
  | [], [] => true
  | a :: as, b :: bs => a == b && eqB as bs
  | _, _ => false

/-- Lowercasing of a text, modelling `str.lower` / `re.IGNORECASE` on ASCII data. -/
def toLowerL (t : List Char) : List Char :=
  t.map Char.toLower

/-- Python `str.strip()`: drop leading and trailing whitespace. -/
def stripL (t : List Char) : List Char :=
  ((t.dropWhile isPySpace).reverse.dropWhile isPySpace).reverse

/-- Python `str.rstrip()`: drop trailing whitespace. -/
def rstripL (t : List Char) : List Char :=
  (t.reverse.dropWhile isPySpace).reverse

/-- Python `str.strip()` on `String`s. -/
def stripS (s : String) : String :=
  (stripL s.data).asString

/-- Python `str.lower()` on `String`s. -/
def lowerS (s : String) : String :=
  (toLowerL s.data).asString

/-- Case-insensitive prefix test: does `pat` (stored lowercase) match the head
of `s`? -/
def ciPrefixOf : List Char → List Char → Bool
  | [], _ => true
  | _ :: _, [] => false
  | p :: ps, c :: cs => p = c.toLower && ciPrefixOf ps cs

/-- First occurrence of `pat` (stored lowercase) in `s` under case
folding, returned as the suffix of `s` that starts at the occurrence —
`none` when `pat` does not occur.  Models `re.search` locating a literal
under `re.IGNORECASE`, and Python's `in` on lowered text. -/
def findCI (pat : List Char) : List Char → Option (List Char)
  | [] => if pat.isEmpty then some [] else none
  | c :: cs => if ciPrefixOf pat (c :: cs) then some (c :: cs) else findCI pat cs

/-- Substring containment test, modelling Python's `in` under case folding. -/
def ciContains (pat s : List Char) : Bool :=
  (findCI pat s).isSome

/-- Case-insensitive literal match of `pat` (stored lowercase) against the head
of `s`; returns the remainder on success.  Models matching `re.escape(lit)`
under `re.IGNORECASE`. -/
def matchLitCI : List Char → List Char → Option (List Char)
  | [], s => some s
  | _ :: _, [] => none
  | p :: ps, c :: cs => if c.toLower = p then matchLitCI ps cs else none

/-- Match a single exact character at the head of the input. -/
def matchChar (x : Char) : List Char → Option (List Char)
  | [] => none
  | c :: cs => if c = x then some cs else none

/-- `utils.py` prefix pattern `^AI\s*` (IGNORECASE): applied once at the start
of the text, removing a leading "ai" and the following whitespace run. -/
def stripAI (t : List Char) : List Char :=
  match matchLitCI ['a', 'i'] t with
  | some rest => rest.dropWhile isPySpace
  | none => t

/-- Matcher for `My thought process\s*` (IGNORECASE). -/
def mThought (s : List Char) : Option (List Char) :=
  (matchLitCI "my thought process".data s).map (·.dropWhile isPySpace)

/-- Matcher for `MetricsValue\s*` (IGNORECASE). -/
def mMetricsValue (s : List Char) : Option (List Char) :=
  (matchLitCI "metricsvalue".data s).map (·.dropWhile isPySpace)

/-- Matcher for `Metrics\s*Value\s*` (IGNORECASE).  The greedy `\s*` runs are
deterministic because they are each followed by a non-whitespace literal. -/
def mMetricsWsValue (s : List Char) : Option (List Char) := do
  let s1 ← matchLitCI "metrics".data s
  let s2 ← matchLitCI "value".data (s1.dropWhile isPySpace)
  pure (s2.dropWhile isPySpace)

/-- Matcher for `\|\s*Metrics\s*\|\s*Value\s*\|` (IGNORECASE). -/
def mPipeHeader (s : List Char) : Option (List Char) := do
  let s1 ← matchChar '|' s
  let s2 ← matchLitCI "metrics".data (s1.dropWhile isPySpace)
  let s3 ← matchChar '|' (s2.dropWhile isPySpace)
  let s4 ← matchLitCI "value".data (s3.dropWhile isPySpace)
  matchChar '|' (s4.dropWhile isPySpace)

/-- Character class `[-\s]` of the table-separator pattern. -/
def isDashOrSpace (c : Char) : Bool :=
  c = '-' || isPySpace c

/-- Matcher for `\|[-\s]+\|[-\s]+\|`: the `[-\s]+` runs are deterministic
because `|` is not in the class. -/
def mPipeSep (s : List Char) : Option (List Char) := do
  let s1 ← matchChar '|' s
  let r1 := s1.takeWhile isDashOrSpace
  let s2 ← matchChar '|' (s1.dropWhile isDashOrSpace)
  if r1.isEmpty then none else
  let r2 := s2.takeWhile isDashOrSpace
  let s3 ← matchChar '|' (s2.dropWhile isDashOrSpace)
  if r2.isEmpty then none else pure s3

/-- `re.sub(pattern, '', text)` for a pattern with no empty match: scan left to
right, delete each match and continue after it.  Structural recursion on a
fuel that starts at the text length: every matcher above consumes at least
one character, so the text shrinks at each step and the fuel never runs
out. -/
def removeAllF (m : List Char → Option (List Char)) : List Char → List Char → List Char
  | _, [] => []
  | [], s => s
  | _ :: fuel, c :: cs =>
    match m (c :: cs) with
    | some rest => removeAllF m fuel rest
    | none => c :: removeAllF m fuel cs

/-- Entry point of the scan-and-delete substitution: the input itself serves
as the fuel, since its length bounds the number of scan steps. -/
def removeAll (m : List Char → Option (List Char)) (s : List Char) : List Char :=
  removeAllF m s s

/-- The prefix-stripping pass of `parse_message_to_dict` (`utils.py` lines
346-356): the six `prefixes_to_remove` substitutions, applied in order. -/
def cleanText (t : List Char) : List Char :=
  removeAll mPipeSep
    (removeAll mPipeHeader
      (removeAll mMetricsWsValue
        (removeAll mMetricsValue
          (removeAll mThought (stripAI t)))))

/-- The value-cleanup substitution `re.sub(r'\s*\|\s*', '', value)`: each
whitespace run followed by `|` is deleted together with the pipe and the
whitespace run after it.  Fueled structural recursion as in `removeAllF`. -/
def removePipesF : List Char → List Char → List Char
  | _, [] => []
  | [], s => s
  | _ :: fuel, c :: cs =>
    if isPySpace c then
      match (c :: cs).dropWhile isPySpace with
      | '|' :: rest => removePipesF fuel (rest.dropWhile isPySpace)
      | _ => c :: removePipesF fuel cs
    else if c = '|' then
      removePipesF fuel (cs.dropWhile isPySpace)
    else
      c :: removePipesF fuel cs

/-- Entry point of the pipe-deletion substitution. -/
def removePipes (s : List Char) : List Char :=
  removePipesF s s

/-- The whitespace-collapse substitution `re.sub(r'\s+', ' ', value)`. -/
def collapseWSF : List Char → List Char → List Char
  | _, [] => []
  | [], s => s
  | _ :: fuel, c :: cs =>
    if isPySpace c then ' ' :: collapseWSF fuel (cs.dropWhile isPySpace)
    else c :: collapseWSF fuel cs

/-- Entry point of the whitespace-collapse substitution. -/
def collapseWS (s : List Char) : List Char :=
  collapseWSF s s

/-- `utils.clean_message`: collapse whitespace runs to single spaces, then strip. -/
def clean_message (t : List Char) : List Char :=
  stripL (collapseWS t)

/-- The lazy capture `(.+?)` with lookahead `(?=NEXT|$)` (`next = none` models
the last-metric pattern `(.+?)$`): after the mandatory first character, stop
at the first position where `NEXT` (lowercase) matches case-insensitively or
at the end of the string. -/
def takeUntilLookahead (next : Option (List Char)) : List Char → List Char
  | [] => []
  | c :: cs =>
    match next with
    | some pat => if ciPrefixOf pat (c :: cs) then [] else c :: takeUntilLookahead next cs
    | none => c :: takeUntilLookahead next cs

/-- One lazy capture starting at a nonempty position. -/
def lazyCapture (next : Option (List Char)) : List Char → List Char
  | [] => []
  | c :: cs => c :: takeUntilLookahead next cs

/-- The raw `group(1)` of the pattern `LABEL\s*[:\|]?\s*(.+?)(?=NEXT|$)` on the
suffix `t` that follows the matched label.  The greedy `\s*[:\|]?\s*` is
consumed first; if that exhausts `t`, Python's backtracking yields a
one-character capture (the last character of `t`), and if `t` is empty the
match attempt fails (`none`). -/
def rawCapture (next : Option (List Char)) (t : List Char) : Option (List Char) :=
  let t1 := t.dropWhile isPySpace
  let t2 := match t1 with
    | ':' :: r => r
    | '|' :: r => r
    | _ => t1
  let t3 := t2.dropWhile isPySpace
  match t3 with
  | [] =>
    match t.reverse with
    | [] => none
    | c :: _ => some [c]
  | _ :: _ => some (lazyCapture next t3)

/-- Cleanup applied to a captured value (`utils.py` lines 374-377): strip,
delete pipes with surrounding whitespace, collapse whitespace. -/
def cleanValue (cap : List Char) : List Char :=
  collapseWS (removePipes (stripL cap))

/-- Extraction of one metric from the cleaned text: `re.search` of the pattern
`re.escape(label)\s*[:\|]?\s*(.+?)(?=re.escape(next)|$)` under
`re.IGNORECASE | re.DOTALL`, then value cleanup; `[]` when the search fails. -/
def extractMetric (text : List Char) (label : List Char) (next : Option (List Char)) :
    List Char :=
  match findCI (toLowerL label) text with
  | none => []
  | some suffix =>
    match rawCapture (next.map toLowerL) (suffix.drop label.length) with
    | none => []
    | some cap => cleanValue cap

/-- `utils.METRICS_COLUMNS`: the 49 metric schema keys, in order. -/
def METRICS_COLUMNS : List String :=
  [ "Business Unit",
    "Category",
    "Brand",
    "Platform",
    "Creative Link",
    "Period",
    "Brand Presence // First Product Appearance (Seconds)",
    "Brand Presence // First Product Appearance (%)",
    "Brand Presence // First Standalone Logo Appearance (Seconds)",
    "Brand Presence // First Standalone Logo Appearance (%)",
    "Brand Presence // Brand Logo Visibility - Standalone",
    "Brand Presence // Brand Logo Visibility - On Product",
    "Brand Presence // Brand Prominence",
    "Brand Presence // Brand Appearance Count",
    "Brand Presence // Other Brands Present",
    "Visuals // Visual Style",
    "Visuals // Color Palette",
    "Visuals // Creative Duration (Seconds)",
    "Visuals // Animation/CGI Used",
    "Visuals // Production Quality",
    "Visuals // Setting",
    "Visuals // Nature Setting",
    "Visuals // Scientific Setting",
    "Visuals // Real Life vs. Staged",
    "Visuals // Individual vs. Group Focus",
    "Visuals // On-Screen Text",
    "Visuals // Text Style",
    "Visuals // Text Size",
    "Visuals // Beauty Appeal",
    "Visuals // Ingredient Visual",
    "Visuals // Horizontal vs. Vertical",
    "Audio // Audio Type",
    "Audio // Voiceover vs. Talent",
    "Audio // Localized Language",
    "Audio // Sound Effects Usage",
    "Talent // Talent Type",
    "Talent // Number of KOLs",
    "Talent // Brand Ambassador Used",
    "Messaging // Messaging Summary",
    "Messaging // Emotional Tone",
    "Messaging // Key Product Benefit Highlighted",
    "Messaging // Emotional Appeal",
    "Messaging // Storytelling Used",
    "Messaging // Call to Action (CTA)",
    "Meaningful & Different // Social Impact",
    "Meaningful & Different // Emotional Depth",
    "Meaningful & Different // Authenticity",
    "Meaningful & Different // Uniqueness of Concept",
    "Meaningful & Different // Execution Style",
    "Meaningful & Different // Target Surprise" ]

/-- The per-metric loop of `parse_message_to_dict` (`utils.py` lines 359-380):
each metric uses the following schema key as its capture boundary; the last
metric captures to the end of the string. -/
def parseMetrics (text : List Char) : List String → List (String × String)
  | [] => []
  | [m] => [(m, (extractMetric text m.data none).asString)]
  | m :: m2 :: rest =>
    (m, (extractMetric text m.data (some m2.data)).asString) :: parseMetrics text (m2 :: rest)

/-- The text-cleaning front end of `parse_message_to_dict`: `message.strip()`
followed by the six prefix substitutions. -/
def cleanedOf (message : String) : List Char :=
  cleanText (stripL message.data)

/-- `utils.parse_message_to_dict`: the Metric Extractor, as an association
list over the schema keys in order. -/
def parse_message_to_dict (message : String) : List (String × String) :=
  parseMetrics (cleanedOf message) METRICS_COLUMNS

/-! ## Response classifier (`ai_uploader.AIUploader.wait_for_response`) -/

/-- `loading_texts` of `wait_for_response`. -/
def loading_texts : List String :=
  ["ai reasoning", "thinking", "generating", "loading", "processing"]

/-- `incomplete_indicators` of `wait_for_response`. -/
def incomplete_indicators : List String :=
  ["metricsvalue", "metrics value", "here's the analysis of the video: metricsvalue",
   "here's the analysis"]

/-- `end_indicators` of `wait_for_response`. -/
def end_indicators : List String :=
  ["target surprise", "uniqueness of concept", "execution style",
   "messaging // messaging summary", "meaningful & different"]

/-- `text_lower = current_text.lower().strip()`. -/
def textLowerOf (t : List Char) : List Char :=
  stripL (toLowerL t)

/-- `is_loading`: some loading marker occurs in the lowered, stripped snapshot. -/
def is_loading (t : List Char) : Bool :=
  loading_texts.any fun m => ciContains m.data (textLowerOf t)

/-- `is_incomplete`: a header-echo marker occurs and the stripped snapshot is
shorter than 200 characters. -/
def is_incomplete (t : List Char) : Bool :=
  (incomplete_indicators.any fun m => ciContains m.data (textLowerOf t)) &&
    !lenGt (stripL t) 199

/-- `has_end_indicator`: some terminal marker occurs in the lowered, stripped
snapshot. -/
def has_end_indicator (t : List Char) : Bool :=
  end_indicators.any fun m => ciContains m.data (textLowerOf t)

/-- The loop state of `wait_for_response`: `last_text` and `stable_count`. -/
structure PollState where
  lastText : List Char
  stableCount : Nat
deriving DecidableEq

/-- The stability update (`ai_uploader.py` lines 459-462): increment when the
snapshot equals the previous text and is longer than 500 characters,
otherwise reset to zero. -/
def updateStable (st : PollState) (cur : List Char) : Nat :=
  if eqB cur st.lastText && lenGt cur 500 then st.stableCount + 1 else 0

/-- One iteration of the polling loop on a non-empty snapshot: the updated
state, and the `is_complete` acceptance decision (lines 471-476). -/
def pollStep (st : PollState) (cur : List Char) : PollState × Bool :=
  let sc := updateStable st cur
  (⟨cur, sc⟩,
    !is_loading cur && !is_incomplete cur && lenGt (stripL cur) 800 &&
      (has_end_indicator cur || decide (5 ≤ sc)))

/-- The polling loop of `wait_for_response`: up to `fuel` attempts (300 in the
source), an empty snapshot updates nothing, a non-empty one is classified;
on timeout the last text is returned when longer than 500 characters, else
`none`. -/
def runPolls (polls : Nat → List Char) : Nat → Nat → PollState → Option (List Char)
  | 0, _, st => if lenGt st.lastText 500 then some (clean_message st.lastText) else none
  | fuel + 1, i, st =>
    let cur := polls i
    if cur.isEmpty then runPolls polls fuel (i + 1) st
    else
      let r := pollStep st cur
      if r.2 then some (clean_message cur) else runPolls polls fuel (i + 1) r.1

/-- `AIUploader.wait_for_response` over an abstract snapshot source: 300 polls
from the initial state. -/
def wait_for_response (polls : Nat → List Char) : Option (List Char) :=
  runPolls polls 300 0 ⟨[], 0⟩

/-! ## Secondary completeness check (`ai_uploader.AIUploader.is_response_complete`) -/

/-- `end_indicators` of `is_response_complete` (a different set from the
polling loop's). -/
def end_indicators_check : List String :=
  ["target surprise", "uniqueness of concept", "execution style",
   "meaningful & different", "authenticity"]

/-- `has_end` of `is_response_complete`: marker containment in the lowered
(unstripped) text. -/
def hasEndCheck (t : List Char) : Bool :=
  end_indicators_check.any fun m => ciContains m.data (toLowerL t)

/-- `is_truncated`: the right-stripped text ends in `-`, `**` or `:`. -/
def isTruncated (t : List Char) : Bool :=
  ['-'].isSuffixOf (rstripL t) || ['*', '*'].isSuffixOf (rstripL t) ||
    [':'].isSuffixOf (rstripL t)

/-- `AIUploader.is_response_complete` (`ai_uploader.py` lines 502-545). -/
def is_response_complete (t : List Char) : Bool :=
  if t.isEmpty then false
  else if lenGt t 2000 then true
  else if !lenGt t 499 then false
  else (hasEndCheck t && !isTruncated t) || lenGt t 1500

/-! ## Tabular store, gatekeeper (`ai_upload_check.py`) -/

/-- A CSV row as read by `csv.DictReader`: an association list from column
name to cell value. -/
abbrev Row := List (String × String)

/-- `row.get(col, "")`. -/
def rowGet (row : Row) (k : String) : String :=
  (row.lookup k).getD ""

/-- `ai_upload_check.is_row_empty_or_header`: every metric column is empty or
case-insensitively equal to its own column name. -/
def is_row_empty_or_header (row : Row) : Bool :=
  METRICS_COLUMNS.all fun col =>
    let val := stripS (rowGet row col)
    decide (val = "" ∨ lowerS val = lowerS col)

/-- The row scan of `should_attempt_ai_upload`: the first row whose stripped
`url` field equals the stripped query decides; no match means `true`. -/
def shouldGo (url : String) : List Row → Bool
  | [] => true
  | r :: rs =>
    if stripS (rowGet r "url") = stripS url then is_row_empty_or_header r
    else shouldGo url rs

/-- `ai_upload_check.should_attempt_ai_upload`: `none` models a missing
output file. -/
def should_attempt_ai_upload (url : String) (store : Option (List Row)) : Bool :=
  match store with
  | none => true
  | some rows => shouldGo url rows

/-! ## Store writes and the streaming pipeline (`utils.py`, `pipeline.py`) -/

/-- The store as the ordered list of appended rows. -/
abbrev Store := List Row

/-- The sentinel row written by `utils.log_failed_url`:
`{'url': url, 'message': f'FAILED: {reason}'}`. -/
def failedRow (url reason : String) : Row :=
  [("url", url), ("message", "FAILED: " ++ reason)]

/-- `utils.log_failed_url`: append the sentinel row. -/
def log_failed_url (url reason : String) (st : Store) : Store :=
  st ++ [failedRow url reason]

/-- `utils.append_result_to_csv_parsed`: append `{'url': url}` together with
the extractor's output on the message. -/
def append_result_to_csv_parsed (url message : String) (st : Store) : Store :=
  st ++ [("url", url) :: parse_message_to_dict message]

/-- One work item of `StreamingPipeline._streaming_mode`, with the outcomes of
its external interactions as oracle fields: whether the video file already
exists, whether the download succeeds, and the response `process_video`
returns (`none` = all attempts failed). -/
structure StreamItem where
  url : String
  fileExists : Bool
  downloadOk : Bool
  response : Option String
deriving DecidableEq

/-- Step 1 of `_streaming_mode` (`pipeline.py` lines 254-274): existing files
are kept, successful downloads are kept, failures append a sentinel row and
drop the item from the batch. -/
def downloadPhase : List StreamItem → Store → List StreamItem × Store
  | [], st => ([], st)
  | it :: rest, st =>
    if it.fileExists then
      let r := downloadPhase rest st
      (it :: r.1, r.2)
    else if it.downloadOk then
      let r := downloadPhase rest st
      (it :: r.1, r.2)
    else
      downloadPhase rest (log_failed_url it.url "Download failed or timeout" st)

/-- Step 2 of `_streaming_mode` (`pipeline.py` lines 279-306): the gatekeeper
filters each item against the current store; a response is appended (inside
`process_video`), a missing response appends a sentinel row. -/
def uploadPhase : List StreamItem → Store → Store
  | [], st => st
  | it :: rest, st =>
    if should_attempt_ai_upload it.url (some st) then
      match it.response with
      | some resp => uploadPhase rest (append_result_to_csv_parsed it.url resp st)
      | none => uploadPhase rest (log_failed_url it.url "AI upload failed" st)
    else uploadPhase rest st

/-- One batch of `_streaming_mode`: download phase, then upload phase. -/
def streamingBatch (batch : List StreamItem) (st : Store) : Store :=
  let r := downloadPhase batch st
  uploadPhase r.1 r.2

/-- `StreamingPipeline._upload_only_mode` (`pipeline.py` lines 186-221): a
missing video file appends a sentinel row and skips the item; otherwise the
item is gated and processed as in the streaming upload phase. -/
def uploadOnlyPhase : List StreamItem → Store → Store
  | [], st => st
  | it :: rest, st =>
    if it.fileExists then
      if should_attempt_ai_upload it.url (some st) then
        match it.response with
        | some resp => uploadOnlyPhase rest (append_result_to_csv_parsed it.url resp st)
        | none => uploadOnlyPhase rest (log_failed_url it.url "AI upload failed" st)
      else uploadOnlyPhase rest st
    else uploadOnlyPhase rest (log_failed_url it.url "Video file not found" st)

/-! ## Legacy-format migration (`utils.migrate_old_output_format`) -/

/-- A CSV file: header plus data rows. -/
structure CsvFile where
  header : List String
  rows : List Row
deriving DecidableEq

/-- The result of a migration run: the file afterwards, the backup written
(if any), and the function's return value. -/
structure MigrationOutcome where
  file : CsvFile
  backupFile : Option CsvFile
  migrated : Bool
deriving DecidableEq

/-- The re-parsed row the migration writes for one legacy row. -/
def parsedRowOf (row : Row) : Row :=
  ("url", rowGet row "url") :: parse_message_to_dict (rowGet row "message")

/-- `utils.migrate_old_output_format` on an existing file: only the exact
legacy header `['url', 'message']` with at least one data row triggers the
rewrite; the backup is taken before the rewrite when enabled. -/
def migrate_old_output_format (f : CsvFile) (backup : Bool) : MigrationOutcome :=
  if f.header = ["url", "message"] then
    if f.rows.isEmpty then ⟨f, none, false⟩
    else
      ⟨⟨"url" :: METRICS_COLUMNS, f.rows.map parsedRowOf⟩,
        if backup then some f else none, true⟩
  else ⟨f, none, false⟩

/-! ## Concrete inputs used by the claims -/

/-- A canonical serialization of string key/value pairs as a JSON object. -/
def jsonObject (ps : List (String × String)) : String :=
  "\x7b" ++ String.intercalate ", " (ps.map fun p => "\"" ++ p.1 ++ "\": \"" ++ p.2 ++ "\"") ++ "\x7d"

/-- The serialized JSON object that maps every schema key to the string value
`X`. -/
def jsonAllX : String :=
  jsonObject (METRICS_COLUMNS.map fun k => (k, "X"))

/-- A two-column pipe-delimited table whose data rows pair schema labels with
values, in an order different from the schema order. -/
def tableScrambled : String :=
  "| Category | Skincare |\n| Business Unit | Beauty |"

/-- The same two rows, in schema order. -/
def tableOrdered : String :=
  "| Business Unit | Beauty |\n| Category | Skincare |"

/-! ## Helper lemmas -/

theorem lenGt_iff (s : List Char) : ∀ n, lenGt s n = decide (n < s.length) := by
  induction s with
  | nil => intro n; simp [lenGt]
  | cons c cs ih =>
    intro n
    cases n with
    | zero => simp [lenGt]
    | succ k => simp [lenGt, ih]

theorem eqB_iff : ∀ s t : List Char, eqB s t = true ↔ s = t
  | [], [] => by simp [eqB]
  | [], _ :: _ => by simp [eqB]
  | _ :: _, [] => by simp [eqB]
  | a :: as, b :: bs => by
    simp [eqB, eqB_iff as bs]

theorem eqB_refl (s : List Char) : eqB s s = true :=
  (eqB_iff s s).mpr rfl

theorem isPySpace_x : isPySpace 'x' = false := by decide

theorem dropWhile_replicate_x (n : Nat) :
    (List.replicate n 'x').dropWhile isPySpace = List.replicate n 'x' := by
  cases n with
  | zero => rfl
  | succ k => simp [List.replicate_succ, List.dropWhile_cons, isPySpace_x]

theorem stripL_replicate_x (n : Nat) :
    stripL (List.replicate n 'x') = List.replicate n 'x' := by
  unfold stripL
  rw [dropWhile_replicate_x, List.reverse_replicate, dropWhile_replicate_x,
    List.reverse_replicate]

theorem collapseWSF_replicate_x (n : Nat) :
    collapseWSF (List.replicate n 'x') (List.replicate n 'x') = List.replicate n 'x' := by
  induction n with
  | zero => rfl
  | succ k ih => simp [List.replicate_succ, collapseWSF, isPySpace_x, ih]

theorem clean_message_replicate_x (n : Nat) :
    clean_message (List.replicate n 'x') = List.replicate n 'x' := by
  unfold clean_message collapseWS
  rw [collapseWSF_replicate_x, stripL_replicate_x]

theorem stripL_length_le (t : List Char) : (stripL t).length ≤ t.length := by
  unfold stripL
  have h1 := (List.dropWhile_sublist (l := t) (p := isPySpace)).length_le
  have h2 := (List.dropWhile_sublist (l := (t.dropWhile isPySpace).reverse)
    (p := isPySpace)).length_le
  simp at h1 h2 ⊢
  omega

theorem parseMetrics_map_fst (text : List Char) :
    ∀ cols, (parseMetrics text cols).map Prod.fst = cols
  | [] => by simp [parseMetrics]
  | [m] => by simp [parseMetrics]
  | m :: m2 :: rest => by
    have ih := parseMetrics_map_fst text (m2 :: rest)
    simp only [parseMetrics, List.map_cons, ih]

theorem extractMetric_not_found (text label : List Char) (next : Option (List Char))
    (h : findCI (toLowerL label) text = none) :
    extractMetric text label next = [] := by
  simp [extractMetric, h]

theorem parseMetrics_not_found (text : List Char) :
    ∀ cols, ∀ p ∈ parseMetrics text cols,
      findCI (toLowerL p.1.data) text = none → p.2 = ""
  | [] => by simp [parseMetrics]
  | [m] => by
    intro p hp hf
    simp only [parseMetrics, List.mem_singleton] at hp
    subst hp
    simp only at hf ⊢
    rw [extractMetric_not_found text m.data none hf]
    rfl
  | m :: m2 :: rest => by
    intro p hp hf
    simp only [parseMetrics, List.mem_cons] at hp
    rcases hp with h | h
    · subst h
      simp only at hf ⊢
      rw [extractMetric_not_found text m.data (some m2.data) hf]
      rfl
    · exact parseMetrics_not_found text (m2 :: rest) p h hf

/-! ## Claim theorems -/

/-- C1 counterexample: the claim counts the schema as 49 keys, but
`METRICS_COLUMNS` in the source has 50 entries, so already on the input `""`
the returned mapping has 50 keys, not 49. -/
theorem extractor_schema_is_not_49 :
    (parse_message_to_dict "").length ≠ 49 := by decide

/-- C1 (amended: the schema has 50 keys, not 49): for every input string the
Metric Extractor `parse_message_to_dict` terminates (it is a total Lean
function) and returns a mapping whose key sequence is exactly the 50
`METRICS_COLUMNS` schema keys — never more, never fewer — and every key
whose label is not resolved (found case-insensitively) in the cleaned text
is mapped to the empty string. -/
theorem extractor_total_fully_keyed (message : String) :
    (parse_message_to_dict message).map Prod.fst = METRICS_COLUMNS ∧
    (parse_message_to_dict message).length = 50 ∧
    ∀ p ∈ parse_message_to_dict message,
      findCI (toLowerL p.1.data) (cleanedOf message) = none → p.2 = "" := by
  refine ⟨parseMetrics_map_fst (cleanedOf message) METRICS_COLUMNS, ?_, ?_⟩
  · have h := congrArg List.length (parseMetrics_map_fst (cleanedOf message) METRICS_COLUMNS)
    simp only [List.length_map] at h
    exact h.trans (by decide)
  · exact parseMetrics_not_found (cleanedOf message) METRICS_COLUMNS

/-- Witness for C1 at the concrete input `"hello"`: the key `Platform` is not
found in the text and is mapped to the empty string, and the key sequence is
the full schema. -/
theorem extractor_total_fully_keyed_witness :
    (parse_message_to_dict "hello").map Prod.fst = METRICS_COLUMNS ∧
    ("Platform", ("" : String)) ∈ parse_message_to_dict "hello" ∧
    (("Platform", ("" : String)) : String × String).2 = "" :=
  ⟨(extractor_total_fully_keyed "hello").1,
   by decide,
   (extractor_total_fully_keyed "hello").2.2 ("Platform", "") (by decide) (by decide)⟩

/-- C7: flattened-prose extraction captures the span between consecutive
schema labels — on `"Business Unit: Beauty Category: Skincare"` the key
`Business Unit` yields `Beauty` and `Category` yields `Skincare` — and for
any input a schema label that does not occur (case-insensitively) in the
cleaned text yields the empty string for its key; each key's value is
computed independently from the same cleaned text, so an absent label does
not change the other keys' values. -/
theorem prose_span_extraction :
    List.lookup "Business Unit"
        (parse_message_to_dict "Business Unit: Beauty Category: Skincare") = some "Beauty" ∧
    List.lookup "Category"
        (parse_message_to_dict "Business Unit: Beauty Category: Skincare") = some "Skincare" ∧
    ∀ (message : String), ∀ p ∈ parse_message_to_dict message,
      findCI (toLowerL p.1.data) (cleanedOf message) = none → p.2 = "" :=
  ⟨by decide, by decide,
   fun message => parseMetrics_not_found (cleanedOf message) METRICS_COLUMNS⟩

/-- Witness for C7: on the example input itself, the absent label `Brand` is
mapped to the empty string. -/
theorem prose_span_extraction_witness :
    ("Brand", ("" : String)) ∈
        parse_message_to_dict "Business Unit: Beauty Category: Skincare" ∧
    (("Brand", ("" : String)) : String × String).2 = "" :=
  ⟨by decide,
   prose_span_extraction.2.2 "Business Unit: Beauty Category: Skincare"
     ("Brand", "") (by decide) (by decide)⟩

/-- C5 counterexample: on the serialized JSON object that maps every schema
key to the string `X`, the extractor does not give back `X` for the key
`Business Unit` — there is no JSON handling in `parse_message_to_dict`, so
the JSON-shape round-trip claimed for every such object fails. -/
theorem json_round_trip_fails :
    List.lookup "Business Unit" (parse_message_to_dict jsonAllX) ≠ some "X" := by
  decide

/-- C5 (amended: the extractor has no JSON shape handling; on serialized JSON
text it applies the flattened-prose rule, so a key's value is the raw
inter-label span — quotes, colon and comma included — rather than the JSON
string value): on the all-`X` object the value extracted for
`Business Unit` is the span `": "X", "`. -/
theorem json_parsed_as_prose_span :
    List.lookup "Business Unit" (parse_message_to_dict jsonAllX) =
      some "\": \"X\", \"" := by
  decide

/-- C6 counterexample: in a two-column table whose rows are not in schema
order, the key `Category` is not mapped to its own row's value `Skincare`,
so markdown-table extraction is not order-independent. -/
theorem table_order_counterexample :
    List.lookup "Category" (parse_message_to_dict tableScrambled) ≠ some "Skincare" := by
  decide

/-- C6 (amended: the extractor treats table text as flattened prose, so it is
order-dependent for this shape: when the data rows appear in schema order
each label gets its own row's value, but a row placed out of schema order
makes the label's value absorb the text of the following rows). -/
theorem table_extraction_is_order_dependent :
    List.lookup "Business Unit" (parse_message_to_dict tableOrdered) = some "Beauty" ∧
    List.lookup "Category" (parse_message_to_dict tableOrdered) = some "Skincare" ∧
    List.lookup "Category" (parse_message_to_dict tableScrambled) =
      some "SkincareBusiness UnitBeauty" := by
  exact ⟨by decide, by decide, by decide⟩

/-- C3 counterexample: a 1600-character text with no end-marker has length in
`(1500, 2000]`, which the claim says is rejected as incomplete, yet
`is_response_complete` accepts it. -/
theorem completeness_check_midlength_not_rejected :
    is_response_complete (List.replicate 1600 'a') ≠ false := by decide

/-- C3 (amended: any text longer than 1500 characters — not only longer than
2000 — is accepted unconditionally; a text with length in `[500, 1500]` is
accepted exactly when it contains an end-marker and does not end, after
right-stripping, in a dash, a double asterisk or a colon; every text shorter
than 500 characters, including the empty text, is rejected). -/
theorem completeness_check_characterization (t : List Char) :
    is_response_complete t =
      (decide (1500 < t.length) ||
        (decide (500 ≤ t.length) && hasEndCheck t && !isTruncated t)) := by
  unfold is_response_complete
  rw [lenGt_iff, lenGt_iff, lenGt_iff]
  by_cases h0 : t = []
  · subst h0; decide
  · have hne : t.isEmpty = false := by
      simpa [List.isEmpty_iff] using h0
    simp only [hne, Bool.false_eq_true, if_false]
    split_ifs with h1 h2
    · replace h1 : 2000 < t.length := by simpa using h1
      have e1 : decide (1500 < t.length) = true := by
        simp only [decide_eq_true_eq]; omega
      rw [e1]
      simp
    · replace h2 : ¬499 < t.length := by simpa using h2
      have e1 : decide (1500 < t.length) = false := by
        simp only [decide_eq_false_iff_not]; omega
      have e2 : decide (500 ≤ t.length) = false := by
        simp only [decide_eq_false_iff_not]; omega
      rw [e1, e2]
      simp
    · replace h2 : 499 < t.length := by simpa using h2
      have e2 : decide (500 ≤ t.length) = true := by
        simp only [decide_eq_true_eq]; omega
      rw [e2]
      cases hD : decide (1500 < t.length) <;> simp

/-! ## Polling-loop helper lemmas -/

theorem pollStep_snd (st : PollState) (cur : List Char) :
    (pollStep st cur).2 =
      (!is_loading cur && !is_incomplete cur && lenGt (stripL cur) 800 &&
        (has_end_indicator cur || decide (5 ≤ updateStable st cur))) := rfl

theorem runPolls_succ (polls : Nat → List Char) (fuel i : Nat) (st : PollState) :
    runPolls polls (fuel + 1) i st =
      if (polls i).isEmpty then runPolls polls fuel (i + 1) st
      else if (pollStep st (polls i)).2 then some (clean_message (polls i))
      else runPolls polls fuel (i + 1) (pollStep st (polls i)).1 := rfl

theorem runPolls_const_stable (snap : List Char) (h0 : snap ≠ [])
    (hlen : lenGt snap 500 = true) :
    ∀ fuel i sc, runPolls (fun _ => snap) fuel i ⟨snap, sc⟩ = some (clean_message snap) := by
  intro fuel
  induction fuel with
  | zero => intro i sc; simp [runPolls, hlen]
  | succ n ih =>
    intro i sc
    have hie : snap.isEmpty = false := by
      simpa [List.isEmpty_iff] using h0
    simp only [runPolls, hie, Bool.false_eq_true, if_false]
    by_cases hok : (pollStep ⟨snap, sc⟩ snap).2 = true
    · simp [hok]
    · simp only [Bool.not_eq_true] at hok
      simp only [hok, Bool.false_eq_true, if_false]
      have hst : (pollStep ⟨snap, sc⟩ snap).1 = ⟨snap, sc + 1⟩ := by
        simp [pollStep, updateStable, eqB_refl, hlen]
      rw [hst]
      exact ih (i + 1) (sc + 1)

theorem wait_const_accepts (snap : List Char) (h0 : snap ≠ [])
    (h8 : lenGt (stripL snap) 800 = true) :
    wait_for_response (fun _ => snap) = some (clean_message snap) := by
  have hlen : lenGt snap 500 = true := by
    rw [lenGt_iff] at h8 ⊢
    simp only [decide_eq_true_eq] at h8 ⊢
    have := stripL_length_le snap
    omega
  have hie : snap.isEmpty = false := by
    simpa [List.isEmpty_iff] using h0
  show runPolls (fun _ => snap) (299 + 1) 0 ⟨[], 0⟩ = some (clean_message snap)
  rw [runPolls_succ]
  simp only [hie, Bool.false_eq_true, if_false]
  by_cases hok : (pollStep ⟨[], 0⟩ snap).2 = true
  · simp [hok]
  · simp only [Bool.not_eq_true] at hok
    simp only [hok, Bool.false_eq_true, if_false]
    have hne : eqB snap [] = false := by
      rcases hb : eqB snap [] with _ | _
      · rfl
      · exact absurd ((eqB_iff _ _).mp hb) h0
    have hst : (pollStep ⟨[], 0⟩ snap).1 = ⟨snap, 0⟩ := by
      simp [pollStep, updateStable, hne]
    rw [hst]
    exact runPolls_const_stable snap h0 hlen 299 1 0

theorem runPolls_const_reject (snap : List Char) (h0 : snap ≠ [])
    (hrej : ∀ st, (pollStep st snap).2 = false)
    (hshort : lenGt snap 500 = false) :
    ∀ fuel i st, st.lastText = snap → runPolls (fun _ => snap) fuel i st = none := by
  intro fuel
  induction fuel with
  | zero =>
    intro i st hst
    simp [runPolls, hst, hshort]
  | succ n ih =>
    intro i st hst
    have hie : snap.isEmpty = false := by
      simpa [List.isEmpty_iff] using h0
    simp only [runPolls, hie, Bool.false_eq_true, if_false, hrej st]
    exact ih (i + 1) _ rfl

theorem wait_const_reject (snap : List Char) (h0 : snap ≠ [])
    (hrej : ∀ st, (pollStep st snap).2 = false)
    (hshort : lenGt snap 500 = false) :
    wait_for_response (fun _ => snap) = none := by
  have hie : snap.isEmpty = false := by
    simpa [List.isEmpty_iff] using h0
  show runPolls (fun _ => snap) (299 + 1) 0 ⟨[], 0⟩ = none
  rw [runPolls_succ]
  simp only [hie, Bool.false_eq_true, if_false, hrej ⟨[], 0⟩]
  exact runPolls_const_reject snap h0 hrej hshort 299 1 _ rfl


/-- C2: a non-empty snapshot is accepted as complete by the polling loop if
and only if it contains none of the loading markers, is not a header-only
echo shorter than 200 characters, its stripped length exceeds 800
characters, and it either contains a terminal end-marker or the identical
text has been observed for 5 consecutive 2-second polls (the entering
state's stability count is at least 4 and this snapshot again equals the
previous text).  The five concrete classifier examples behave as the spec
states: `Thinking...` is LOADING, `MetricsValue` is INCOMPLETE, a
1000-character text containing `target surprise` is COMPLETE, a
1000-character markerless text that stays byte-identical poll after poll is
accepted (COMPLETE via stability), and a 50-character markerless text is
never accepted and yields `none` (TIMED_OUT) at the 300-poll ceiling. -/
theorem polling_classifier_characterization :
    (∀ (st : PollState) (cur : List Char),
        (pollStep st cur).2 = true ↔
          (is_loading cur = false ∧ is_incomplete cur = false ∧
            800 < (stripL cur).length ∧
            (has_end_indicator cur = true ∨ (cur = st.lastText ∧ 4 ≤ st.stableCount)))) ∧
    is_loading "Thinking...".data = true ∧
    is_incomplete "MetricsValue".data = true ∧
    (pollStep ⟨[], 0⟩ (List.replicate 985 'x' ++ "target surprise".data)).2 = true ∧
    wait_for_response (fun _ => List.replicate 1000 'x') =
      some (List.replicate 1000 'x') ∧
    wait_for_response (fun _ => List.replicate 50 'x') = none := by
  refine ⟨?_, by decide, by decide, by decide, ?_, ?_⟩
  · intro st cur
    rw [pollStep_snd]
    simp only [Bool.and_eq_true, Bool.or_eq_true, Bool.not_eq_true', decide_eq_true_eq,
      lenGt_iff]
    constructor
    · rintro ⟨⟨⟨hl, hi⟩, h8⟩, hor⟩
      refine ⟨hl, hi, h8, ?_⟩
      rcases hor with he | hsc
      · exact Or.inl he
      · right
        unfold updateStable at hsc
        split at hsc
        · next hc =>
          rw [Bool.and_eq_true] at hc
          exact ⟨(eqB_iff _ _).mp hc.1, by omega⟩
        · omega
    · rintro ⟨hl, hi, h8, hor⟩
      refine ⟨⟨⟨hl, hi⟩, h8⟩, ?_⟩
      rcases hor with he | ⟨heq, hsc⟩
      · exact Or.inl he
      · right
        have hlen : 500 < cur.length := by
          have := stripL_length_le cur
          omega
        unfold updateStable
        have hc : (eqB cur st.lastText && lenGt cur 500) = true := by
          rw [Bool.and_eq_true, lenGt_iff]
          exact ⟨(eqB_iff _ _).mpr heq, by simpa using hlen⟩
        rw [if_pos hc]
        omega
  · have h0 : (List.replicate 1000 'x' : List Char) ≠ [] := by simp
    have h8 : lenGt (stripL (List.replicate 1000 'x')) 800 = true := by
      rw [stripL_replicate_x, lenGt_iff]
      simp
    rw [wait_const_accepts (List.replicate 1000 'x') h0 h8, clean_message_replicate_x]
  · have h0 : (List.replicate 50 'x' : List Char) ≠ [] := by simp
    have hrej : ∀ st, (pollStep st (List.replicate 50 'x')).2 = false := by
      intro st
      rw [pollStep_snd]
      have h8 : lenGt (stripL (List.replicate 50 'x')) 800 = false := by
        rw [stripL_replicate_x, lenGt_iff]
        simp
      rw [h8]
      simp
    have hshort : lenGt (List.replicate 50 'x') 500 = false := by
      rw [lenGt_iff]; simp
    exact wait_const_reject (List.replicate 50 'x') h0 hrej hshort


/-! ## Gatekeeper helper lemmas -/

theorem shouldGo_no_match (url : String) :
    ∀ rows : List Row, (∀ r ∈ rows, stripS (rowGet r "url") ≠ stripS url) →
      shouldGo url rows = true := by
  intro rows
  induction rows with
  | nil => intro _; rfl
  | cons r rs ih =>
    intro h
    unfold shouldGo
    rw [if_neg (h r (List.mem_cons_self r rs))]
    exact ih fun r' hr' => h r' (List.mem_cons_of_mem r hr')

theorem shouldGo_first_match (url : String) (r : Row) (post : List Row) :
    ∀ pre : List Row, (∀ r' ∈ pre, stripS (rowGet r' "url") ≠ stripS url) →
      stripS (rowGet r "url") = stripS url →
      shouldGo url (pre ++ r :: post) = is_row_empty_or_header r := by
  intro pre
  induction pre with
  | nil =>
    intro _ hr
    rw [List.nil_append]
    unfold shouldGo
    rw [if_pos hr]
  | cons p ps ih =>
    intro hpre hr
    have hp : stripS (rowGet p "url") ≠ stripS url := hpre p (List.mem_cons_self p ps)
    show shouldGo url (p :: (ps ++ r :: post)) = _
    unfold shouldGo
    rw [if_neg hp]
    exact ih (fun r' hr' => hpre r' (List.mem_cons_of_mem p hr')) hr

theorem shouldGo_false_mem (url : String) :
    ∀ rows : List Row, shouldGo url rows = false →
      ∃ r ∈ rows, stripS (rowGet r "url") = stripS url ∧
        is_row_empty_or_header r = false := by
  intro rows
  induction rows with
  | nil => intro h; exact absurd h (by simp [shouldGo])
  | cons r rs ih =>
    intro h
    unfold shouldGo at h
    by_cases hm : stripS (rowGet r "url") = stripS url
    · rw [if_pos hm] at h
      exact ⟨r, List.mem_cons_self r rs, hm, h⟩
    · rw [if_neg hm] at h
      obtain ⟨r', hr', hm', he'⟩ := ih h
      exact ⟨r', List.mem_cons_of_mem r hr', hm', he'⟩

/-- C4: the Upload Gatekeeper returns `true` when the store file is absent or
contains no row whose stripped `url` equals the key; and when the key's
(first-matching) row exists, it returns exactly the header-echo test: `true`
when every metric field is empty or case-insensitively equal to its own
column label, `false` when some non-empty field differs from its label. -/
theorem gatekeeper_decision (url : String) (rows pre post : List Row) (r : Row) :
    should_attempt_ai_upload url none = true ∧
    ((∀ r' ∈ rows, stripS (rowGet r' "url") ≠ stripS url) →
      should_attempt_ai_upload url (some rows) = true) ∧
    ((∀ r' ∈ pre, stripS (rowGet r' "url") ≠ stripS url) →
      stripS (rowGet r "url") = stripS url →
      should_attempt_ai_upload url (some (pre ++ r :: post)) =
        is_row_empty_or_header r) :=
  ⟨rfl, shouldGo_no_match url rows,
   fun hpre hr => shouldGo_first_match url r post pre hpre hr⟩

/-- Witness for C4: absent store, a store with no matching row, a matching
header-echo row (retry) and a matching row with one real value (skip). -/
theorem gatekeeper_decision_witness :
    should_attempt_ai_upload "u" none = true ∧
    should_attempt_ai_upload "u" (some [[("url", "w"), ("Business Unit", "Q")]]) = true ∧
    should_attempt_ai_upload "u"
      (some [("url", "u") :: METRICS_COLUMNS.map fun c => (c, c)]) = true ∧
    should_attempt_ai_upload "u"
      (some [[("url", "u"), ("Business Unit", "Beauty")]]) = false :=
  ⟨(gatekeeper_decision "u" [] [] [] []).1,
   (gatekeeper_decision "u" [[("url", "w"), ("Business Unit", "Q")]] [] [] []).2.1
     (by decide),
   ((gatekeeper_decision "u" [] [] []
       (("url", "u") :: METRICS_COLUMNS.map fun c => (c, c))).2.2
     (by decide) (by decide)).trans (by decide),
   ((gatekeeper_decision "u" [] [] []
       [("url", "u"), ("Business Unit", "Beauty")]).2.2
     (by decide) (by decide)).trans (by decide)⟩

/-- C10: the gatekeeper's decision depends only on the first store row whose
stripped `url` field equals the queried key: the result equals the
header-echo test of that row, and the rows after the first match are never
examined (replacing them does not change the decision). -/
theorem gatekeeper_first_match_only (url : String) (pre post post' : List Row) (r : Row)
    (hpre : ∀ r' ∈ pre, stripS (rowGet r' "url") ≠ stripS url)
    (hr : stripS (rowGet r "url") = stripS url) :
    should_attempt_ai_upload url (some (pre ++ r :: post)) = is_row_empty_or_header r ∧
    should_attempt_ai_upload url (some (pre ++ r :: post)) =
      should_attempt_ai_upload url (some (pre ++ r :: post')) := by
  have h1 := shouldGo_first_match url r post pre hpre hr
  have h2 := shouldGo_first_match url r post' pre hpre hr
  exact ⟨h1, h1.trans h2.symm⟩

/-- Witness for C10: a first-matching all-empty row makes the gatekeeper
return `true` even though a later row for the same key holds a valid
value. -/
theorem gatekeeper_first_match_only_witness :
    should_attempt_ai_upload "u"
      (some [[("url", "u")], [("url", "u"), ("Business Unit", "Beauty")]]) = true :=
  ((gatekeeper_first_match_only "u" []
      [[("url", "u"), ("Business Unit", "Beauty")]] [] [("url", "u")]
      (by decide) (by decide)).1).trans (by decide)

/-! ## Pipeline helper lemmas -/

theorem uploadPhase_cons (it : StreamItem) (rest : List StreamItem) (st : Store) :
    uploadPhase (it :: rest) st =
      if should_attempt_ai_upload it.url (some st) then
        match it.response with
        | some resp => uploadPhase rest (append_result_to_csv_parsed it.url resp st)
        | none => uploadPhase rest (log_failed_url it.url "AI upload failed" st)
      else uploadPhase rest st := rfl

theorem uploadPhase_extends : ∀ (items : List StreamItem) (st : Store),
    st <+: uploadPhase items st := by
  intro items
  induction items with
  | nil => intro st; exact List.prefix_rfl
  | cons it rest ih =>
    intro st
    unfold uploadPhase
    by_cases hg : should_attempt_ai_upload it.url (some st) = true
    · rw [if_pos hg]
      cases hresp : it.response with
      | some resp => exact (List.prefix_append st _).trans (ih _)
      | none => exact (List.prefix_append st _).trans (ih _)
    · rw [if_neg hg]
      exact ih st

theorem downloadPhase_extends : ∀ (items : List StreamItem) (st : Store),
    st <+: (downloadPhase items st).2 := by
  intro items
  induction items with
  | nil => intro st; exact List.prefix_rfl
  | cons it rest ih =>
    intro st
    unfold downloadPhase
    by_cases hf : it.fileExists = true
    · rw [if_pos hf]; exact ih st
    · rw [if_neg hf]
      by_cases hd : it.downloadOk = true
      · rw [if_pos hd]; exact ih st
      · rw [if_neg hd]
        exact (List.prefix_append st _).trans (ih _)

theorem downloadPhase_fail_mem : ∀ (items : List StreamItem) (st : Store)
    (it : StreamItem), it ∈ items → it.fileExists = false → it.downloadOk = false →
    failedRow it.url "Download failed or timeout" ∈ (downloadPhase items st).2 := by
  intro items
  induction items with
  | nil => intro st it h; exact absurd h (List.not_mem_nil it)
  | cons it' rest ih =>
    intro st it hmem hf hd
    rcases List.mem_cons.mp hmem with rfl | hmem'
    · unfold downloadPhase
      rw [if_neg (by rw [hf]; exact Bool.false_ne_true),
        if_neg (by rw [hd]; exact Bool.false_ne_true)]
      refine (downloadPhase_extends rest _).subset ?_
      exact List.mem_append_right st (List.mem_singleton.mpr rfl)
    · unfold downloadPhase
      by_cases hf' : it'.fileExists = true
      · rw [if_pos hf']; exact ih st it hmem' hf hd
      · rw [if_neg hf']
        by_cases hd' : it'.downloadOk = true
        · rw [if_pos hd']; exact ih st it hmem' hf hd
        · rw [if_neg hd']; exact ih _ it hmem' hf hd

theorem uploadPhase_resp_none : ∀ (items : List StreamItem) (st : Store)
    (it : StreamItem), it ∈ items → it.response = none →
    failedRow it.url "AI upload failed" ∈ uploadPhase items st ∨
    ∃ r ∈ uploadPhase items st,
      stripS (rowGet r "url") = stripS it.url ∧ is_row_empty_or_header r = false := by
  intro items
  induction items with
  | nil => intro st it h; exact absurd h (List.not_mem_nil it)
  | cons it' rest ih =>
    intro st it hmem hresp
    rcases List.mem_cons.mp hmem with rfl | hmem'
    · unfold uploadPhase
      by_cases hg : should_attempt_ai_upload it.url (some st) = true
      · rw [if_pos hg, hresp]
        left
        refine (uploadPhase_extends rest _).subset ?_
        exact List.mem_append_right st (List.mem_singleton.mpr rfl)
      · rw [if_neg hg]
        right
        have hfalse : shouldGo it.url st = false := by
          rcases hb : shouldGo it.url st with _ | _
          · rfl
          · exact absurd hb hg
        obtain ⟨r, hr, hm, he⟩ := shouldGo_false_mem it.url st hfalse
        exact ⟨r, (uploadPhase_extends rest st).subset hr, hm, he⟩
    · unfold uploadPhase
      by_cases hg : should_attempt_ai_upload it'.url (some st) = true
      · rw [if_pos hg]
        cases hresp' : it'.response with
        | some resp => exact ih _ it hmem' hresp
        | none => exact ih _ it hmem' hresp
      · rw [if_neg hg]
        exact ih st it hmem' hresp

theorem uploadPhase_append (pre post : List StreamItem) : ∀ st : Store,
    uploadPhase (pre ++ post) st = uploadPhase post (uploadPhase pre st) := by
  induction pre with
  | nil => intro st; rfl
  | cons it rest ih =>
    intro st
    rw [List.cons_append, uploadPhase_cons, uploadPhase_cons]
    by_cases hg : should_attempt_ai_upload it.url (some st) = true
    · rw [if_pos hg, if_pos hg]
      cases hresp : it.response with
      | some resp => exact ih _
      | none => exact ih _
    · rw [if_neg hg, if_neg hg]
      exact ih st

theorem uploadOnlyPhase_extends : ∀ (items : List StreamItem) (st : Store),
    st <+: uploadOnlyPhase items st := by
  intro items
  induction items with
  | nil => intro st; exact List.prefix_rfl
  | cons it rest ih =>
    intro st
    unfold uploadOnlyPhase
    by_cases hf : it.fileExists = true
    · rw [if_pos hf]
      by_cases hg : should_attempt_ai_upload it.url (some st) = true
      · rw [if_pos hg]
        cases hresp : it.response with
        | some resp => exact (List.prefix_append st _).trans (ih _)
        | none => exact (List.prefix_append st _).trans (ih _)
      · rw [if_neg hg]
        exact ih st
    · rw [if_neg hf]
      exact (List.prefix_append st _).trans (ih _)

theorem uploadOnlyPhase_missing_mem : ∀ (items : List StreamItem) (st : Store)
    (it : StreamItem), it ∈ items → it.fileExists = false →
    failedRow it.url "Video file not found" ∈ uploadOnlyPhase items st := by
  intro items
  induction items with
  | nil => intro st it h; exact absurd h (List.not_mem_nil it)
  | cons it' rest ih =>
    intro st it hmem hf
    rcases List.mem_cons.mp hmem with rfl | hmem'
    · unfold uploadOnlyPhase
      rw [if_neg (by rw [hf]; exact Bool.false_ne_true)]
      refine (uploadOnlyPhase_extends rest _).subset ?_
      exact List.mem_append_right st (List.mem_singleton.mpr rfl)
    · unfold uploadOnlyPhase
      by_cases hf' : it'.fileExists = true
      · rw [if_pos hf']
        by_cases hg : should_attempt_ai_upload it'.url (some st) = true
        · rw [if_pos hg]
          cases hresp : it'.response with
          | some resp => exact ih _ it hmem' hf
          | none => exact ih _ it hmem' hf
        · rw [if_neg hg]
          exact ih st it hmem' hf
      · rw [if_neg hf']
        exact ih _ it hmem' hf

/-- C9: a work item that fails unrecoverably leaves its key represented in
the store and the batch keeps going: a failed download appends the sentinel
row `FAILED: Download failed or timeout`; an item whose video file is
missing in upload-only mode gets the sentinel row
`FAILED: Video file not found`; an item whose AI upload attempts all fail
either gets the sentinel row `FAILED: AI upload failed` or was skipped
because the store already holds a matching row with a real (non-empty,
non-header) value; and the upload phase processes the items after any
failure exactly as it would have on its own (no abort). -/
theorem pipeline_failure_sentinels :
    (∀ (batch : List StreamItem) (st : Store) (it : StreamItem),
        it ∈ batch → it.fileExists = false → it.downloadOk = false →
        failedRow it.url "Download failed or timeout" ∈ streamingBatch batch st) ∧
    (∀ (items : List StreamItem) (st : Store) (it : StreamItem),
        it ∈ items → it.fileExists = false →
        failedRow it.url "Video file not found" ∈ uploadOnlyPhase items st) ∧
    (∀ (items : List StreamItem) (st : Store) (it : StreamItem),
        it ∈ items → it.response = none →
        failedRow it.url "AI upload failed" ∈ uploadPhase items st ∨
        ∃ r ∈ uploadPhase items st,
          stripS (rowGet r "url") = stripS it.url ∧ is_row_empty_or_header r = false) ∧
    (∀ (pre post : List StreamItem) (st : Store),
        uploadPhase (pre ++ post) st = uploadPhase post (uploadPhase pre st)) := by
  refine ⟨?_, uploadOnlyPhase_missing_mem, uploadPhase_resp_none,
    fun pre post st => uploadPhase_append pre post st⟩
  intro batch st it hmem hf hd
  unfold streamingBatch
  exact (uploadPhase_extends _ _).subset (downloadPhase_fail_mem batch st it hmem hf hd)

/-- Witness for C9: a batch with one failed download, one missing video file
in upload-only mode, and one failed upload produces the three sentinel
rows. -/
theorem pipeline_failure_sentinels_witness :
    failedRow "u1" "Download failed or timeout" ∈
      streamingBatch [⟨"u1", false, false, none⟩] [] ∧
    failedRow "u3" "Video file not found" ∈
      uploadOnlyPhase [⟨"u3", false, true, some "m"⟩] [] ∧
    (failedRow "u2" "AI upload failed" ∈ uploadPhase [⟨"u2", false, true, none⟩] [] ∨
      ∃ r ∈ uploadPhase [⟨"u2", false, true, none⟩] [],
        stripS (rowGet r "url") = stripS "u2" ∧ is_row_empty_or_header r = false) :=
  ⟨pipeline_failure_sentinels.1 _ _ _ (List.mem_singleton.mpr rfl) rfl rfl,
   pipeline_failure_sentinels.2.1 _ _ _ (List.mem_singleton.mpr rfl) rfl,
   pipeline_failure_sentinels.2.2.1 _ _ _ (List.mem_singleton.mpr rfl) rfl⟩

/-- C8 counterexample: an existing store file with exactly the legacy header
`['url', 'message']` but zero data rows is not migrated at all — the header
stays legacy and no backup is produced, contrary to the claim that every
legacy-headed file is rewritten with the full-schema header and backed
up. -/
theorem migration_empty_legacy_counterexample :
    (migrate_old_output_format ⟨["url", "message"], []⟩ true).file.header ≠
      "url" :: METRICS_COLUMNS ∧
    (migrate_old_output_format ⟨["url", "message"], []⟩ true).backupFile = none :=
  ⟨by decide, rfl⟩

/-- C8 (amended: restricted to legacy files with at least one data row): for
every legacy two-column file with a non-empty row list, migration with
backup enabled rewrites the file with header `url :: METRICS_COLUMNS`, the
same number of data rows, each new row being the key paired with the
extractor's output on that row's stored message, and the backup equals the
pre-migration file; a file already in the full-schema format is left
unchanged with no backup. -/
theorem migration_legacy_nonempty (rows : List Row) (hne : rows ≠ []) (g : CsvFile)
    (hg : g.header = "url" :: METRICS_COLUMNS) :
    (migrate_old_output_format ⟨["url", "message"], rows⟩ true).file.header =
        "url" :: METRICS_COLUMNS ∧
    (migrate_old_output_format ⟨["url", "message"], rows⟩ true).file.rows.length =
        rows.length ∧
    (migrate_old_output_format ⟨["url", "message"], rows⟩ true).file.rows =
        rows.map parsedRowOf ∧
    (migrate_old_output_format ⟨["url", "message"], rows⟩ true).backupFile =
        some ⟨["url", "message"], rows⟩ ∧
    (migrate_old_output_format ⟨["url", "message"], rows⟩ true).migrated = true ∧
    migrate_old_output_format g true = ⟨g, none, false⟩ := by
  have hie : rows.isEmpty = false := by
    simpa [List.isEmpty_iff] using hne
  have hmain : migrate_old_output_format ⟨["url", "message"], rows⟩ true =
      ⟨⟨"url" :: METRICS_COLUMNS, rows.map parsedRowOf⟩,
        some ⟨["url", "message"], rows⟩, true⟩ := by
    unfold migrate_old_output_format
    simp [hie]
  have hskip : migrate_old_output_format g true = ⟨g, none, false⟩ := by
    unfold migrate_old_output_format
    rw [if_neg (by rw [hg]; decide)]
  rw [hmain]
  exact ⟨rfl, by simp, rfl, rfl, rfl, hskip⟩

/-- Witness for C8 at a one-row legacy store and a full-schema file. -/
theorem migration_legacy_nonempty_witness :
    (migrate_old_output_format
        ⟨["url", "message"], [[("url", "u"), ("message", "hello")]]⟩ true).file.header =
      "url" :: METRICS_COLUMNS ∧
    (migrate_old_output_format
        ⟨["url", "message"], [[("url", "u"), ("message", "hello")]]⟩ true).backupFile =
      some ⟨["url", "message"], [[("url", "u"), ("message", "hello")]]⟩ ∧
    migrate_old_output_format ⟨"url" :: METRICS_COLUMNS, []⟩ true =
      ⟨⟨"url" :: METRICS_COLUMNS, []⟩, none, false⟩ :=
  ⟨(migration_legacy_nonempty [[("url", "u"), ("message", "hello")]] (by decide)
      ⟨"url" :: METRICS_COLUMNS, []⟩ rfl).1,
   (migration_legacy_nonempty [[("url", "u"), ("message", "hello")]] (by decide)
      ⟨"url" :: METRICS_COLUMNS, []⟩ rfl).2.2.2.1,
   (migration_legacy_nonempty [[("url", "u"), ("message", "hello")]] (by decide)
      ⟨"url" :: METRICS_COLUMNS, []⟩ rfl).2.2.2.2.2⟩

end MVoice
